import Mathlib

/-!
Shallow embedding of `folly/experimental/coro/Promise.h` (folly coroutine
completion state machine) and proofs about its finalization protocol,
result-cell writes, and await-dispatch logic.

Atomics are modelled by explicit state passing: the shared atomic
`state_` evolves through the loads and compare-exchanges of
`FinalSuspender::await_suspend`, with concurrent interference represented
by a schedule of legal external transitions (`EMPTY → DETACHED` by detach,
`EMPTY → HAS_AWAITER` by awaiter registration) and of spurious
`compare_exchange_weak` failures.
-/

namespace Folly
namespace Coro

/-- The `PromiseState` enum from Promise.h. -/
inductive PromiseState where
  | EMPTY
  | DETACHED
  | HAS_AWAITER
  | HAS_RESULT
deriving DecidableEq, Repr

/-- The result cell `folly::Try<T>` (`result_`). Try.h itself is not part of
the analysed module; the spec describes the ResultCell as a tri-state
value / error / empty container, which is all the state machine needs.
The error payload (`exception_wrapper`) is opaque, modelled by a `Nat` id. -/
inductive Try (α : Type) where
  | nothing
  | value (v : α)
  | error (e : Nat)
deriving DecidableEq, Repr

/-- The `Promise<T>` frame state: result cell, atomic lifecycle state,
stored continuation handle (`coroutine_handle<>`, nullable, opaque id),
and the bound executor pointer (`Executor*`, 0 = nullptr). -/
structure Promise (α : Type) where
  result_ : Try α
  state_ : PromiseState
  awaiter_ : Option Nat
  executor_ : Nat
deriving DecidableEq, Repr

/-- `PromiseBase<T>::return_value`: `result_ = Try<T>(std::forward<U>(value));` -/
def return_value {α : Type} (p : Promise α) (v : α) : Promise α :=
  { p with result_ := Try.value v }

/-- `Promise<T>::unhandled_exception`:
`result_ = Try<T>(exception_wrapper::from_exception_ptr(std::current_exception()));` -/
def unhandled_exception {α : Type} (p : Promise α) (e : Nat) : Promise α :=
  { p with result_ := Try.error e }

/-- `PromiseBase<void>::return_void() {}` — the body is empty; no field is
touched. -/
def return_void (p : Promise Unit) : Promise Unit := p

/-- Fields of the promise a member function may store to. -/
inductive FieldW where
  | wresult
  | wstate
  | wawaiter
  | wexecutor
deriving DecidableEq, Repr

/-- The stores executed by `return_value`: one store to `result_`. -/
def return_value_stores : List FieldW := [FieldW.wresult]

/-- The stores executed by `unhandled_exception`: one store to `result_`. -/
def unhandled_exception_stores : List FieldW := [FieldW.wresult]

/-- The stores executed by `return_void`: none (empty body). -/
def return_void_stores : List FieldW := []

/-- How a coroutine body completes: with a value or with an uncaught error. -/
inductive Outcome (α : Type) where
  | value (v : α)
  | error (e : Nat)
deriving DecidableEq, Repr

/-- The member function the compiler invokes on body completion of a
non-void coroutine, as its list of stores: `return_value` on the value
path, `unhandled_exception` on the error path. -/
def completionStoresNonVoid {α : Type} : Outcome α → List FieldW
  | Outcome.value _ => return_value_stores
  | Outcome.error _ => unhandled_exception_stores

/-- The member function invoked on body completion of a `void` coroutine:
`PromiseBase<void>::return_void` on the value path, `unhandled_exception`
on the error path. -/
def completionStoresVoid : Outcome Unit → List FieldW
  | Outcome.value _ => return_void_stores
  | Outcome.error _ => unhandled_exception_stores

/-- Number of stores to `result_` in a list of stores. -/
def resultWrites (l : List FieldW) : Nat := l.count FieldW.wresult

/-- A legal transition of the one external actor (invariant I1): detach
performs `EMPTY → DETACHED`, awaiter registration performs
`EMPTY → HAS_AWAITER`. -/
inductive EnvEdge where
  | detach
  | register
deriving DecidableEq, Repr

/-- Apply an (optional) external transition to the shared state. The
external actor only moves the state out of `EMPTY`; from any other state
its operation is a no-op (detach of an already-finished frame discards the
result, registration on a finished frame takes the synchronous fast
path). -/
def applyEdge : Option EnvEdge → PromiseState → PromiseState
  | some EnvEdge.detach, PromiseState.EMPTY => PromiseState.DETACHED
  | some EnvEdge.register, PromiseState.EMPTY => PromiseState.HAS_AWAITER
  | _, s => s

/-- One iteration of the adversarial schedule: the external transition (if
any) that lands between the previous atomic operation and this iteration's
compare-exchange, and whether this `compare_exchange_weak` fails
spuriously. -/
structure Iter where
  edge : Option EnvEdge
  spurious : Bool
deriving DecidableEq, Repr

/-- How the `do`/`while` loop of `FinalSuspender::await_suspend` exits:
either the `DETACHED` early return (`return false`) or a successful
compare-exchange whose observed prior state was `prior`. -/
inductive LoopExit where
  | detached
  | completed (prior : PromiseState)
deriving DecidableEq, Repr

/-- Observable outcome of the compare-exchange loop: how it exited, the
final shared state, the number of loop iterations executed, whether any
iteration's `DCHECK(state != State::HAS_RESULT)` observed `HAS_RESULT`,
and the list of (from, to) writes the loop itself performed on the shared
atomic state. -/
structure LoopResult where
  exit : LoopExit
  shared : PromiseState
  iters : Nat
  sawHasResult : Bool
  writes : List (PromiseState × PromiseState)
deriving DecidableEq, Repr

/-- The compare-exchange loop of `FinalSuspender::await_suspend`:

```
do {
  if (state == State::DETACHED) return false;
  DCHECK(state != State::HAS_RESULT);
} while (!promise_.state_.compare_exchange_weak(state, State::HAS_RESULT, ...));
```

`observed` is the local variable `state` (last loaded value), `shared` the
shared atomic. Each iteration first checks the local value for `DETACHED`;
the scheduled external transition is then applied to the shared state, and
the compare-exchange succeeds iff the observed value still matches the
shared state and the iteration is not a scheduled spurious failure. On
failure `compare_exchange_weak` reloads `state` from the shared atomic.
When the schedule is exhausted, later iterations run without interference
or spurious failure. `fuel` bounds recursion; `none` means the fuel was
exhausted before the loop exited. -/
def casLoop : Nat → List Iter → PromiseState → PromiseState → Option LoopResult
  | 0, _, _, _ => none
  | Nat.succ fuel, sched, observed, shared =>
    if observed = PromiseState.DETACHED then
      some ⟨LoopExit.detached, shared, 1, false, []⟩
    else if observed = applyEdge (sched.headD ⟨none, false⟩).edge shared
        ∧ (sched.headD ⟨none, false⟩).spurious = false then
      some ⟨LoopExit.completed observed, PromiseState.HAS_RESULT, 1,
            decide (observed = PromiseState.HAS_RESULT),
            [(observed, PromiseState.HAS_RESULT)]⟩
    else
      (casLoop fuel sched.tail (applyEdge (sched.headD ⟨none, false⟩).edge shared)
          (applyEdge (sched.headD ⟨none, false⟩).edge shared)).map
        fun r =>
          ⟨r.exit, r.shared, r.iters + 1,
           decide (observed = PromiseState.HAS_RESULT) || r.sawHasResult, r.writes⟩

/-- Observable outcome of `FinalSuspender::await_suspend`: the loop exit,
the C++ return value (`true` = stay suspended), the number of
`awaiter_.resume()` calls performed, and the loop observables. -/
structure SuspendResult where
  exit : LoopExit
  suspended : Bool
  resumes : Nat
  shared : PromiseState
  iters : Nat
  sawHasResult : Bool
  writes : List (PromiseState × PromiseState)
deriving DecidableEq, Repr

/-- The code after the loop: on the `DETACHED` early exit `await_suspend`
returned `false` without resuming; otherwise it resumes the stored
continuation exactly when the prior state observed by the successful
compare-exchange was `HAS_AWAITER` (`if (state == State::HAS_AWAITER)
promise_.awaiter_.resume();`) and returns `true`. -/
def suspendOfLoop (r : LoopResult) : SuspendResult :=
  match r.exit with
  | LoopExit.detached =>
      ⟨LoopExit.detached, false, 0, r.shared, r.iters, r.sawHasResult, r.writes⟩
  | LoopExit.completed prior =>
      ⟨LoopExit.completed prior, true,
       if prior = PromiseState.HAS_AWAITER then 1 else 0,
       r.shared, r.iters, r.sawHasResult, r.writes⟩

/-- `FinalSuspender::await_suspend`: load the state, run the
compare-exchange loop, then resume/return as `suspendOfLoop` describes.
`s` is the value of the shared state at the initial
`load(std::memory_order_acquire)`. -/
def await_suspend (fuel : Nat) (sched : List Iter) (s : PromiseState) :
    Option SuspendResult :=
  (casLoop fuel sched s s).map suspendOfLoop

/-- `FinalSuspender::await_ready`:
`return promise_.state_.load(std::memory_order_acquire) == State::DETACHED;` -/
def await_ready (s : PromiseState) : Bool :=
  decide (s = PromiseState.DETACHED)

/-- `await_ready` as invoked on the promise frame. -/
def finalAwaitReady {α : Type} (p : Promise α) : Bool :=
  await_ready p.state_

/-- `await_suspend` as invoked on the promise frame. -/
def finalAwaitSuspend {α : Type} (fuel : Nat) (sched : List Iter) (p : Promise α) :
    Option SuspendResult :=
  await_suspend fuel sched p.state_

/-- A peer `coro::Future<U>` handle, as seen by `await_transform`: it
exposes the executor its promise is bound to (`future.promise_->executor_`). -/
structure FutureHandle where
  promiseExecutor : Nat
deriving DecidableEq, Repr

/-- The `AwaitWrapper<Future<U>>` produced by `await_transform`: records
which `create` overload was used — `create(future)` passes no executor,
`create(future, executor)` stores the executor to hop to. -/
structure AwaitWrapper where
  passedExecutor : Option Nat
deriving DecidableEq, Repr

/-- `AwaitWrapper<Future<U>>::create(future)` — the overload without an
executor. -/
def AwaitWrapper.create1 (_f : FutureHandle) : AwaitWrapper :=
  ⟨none⟩

/-- `AwaitWrapper<Future<U>>::create(future, executor)` — the overload
taking the executor to resume on. -/
def AwaitWrapper.create2 (_f : FutureHandle) (e : Nat) : AwaitWrapper :=
  ⟨some e⟩

/-- `Promise<T>::await_transform(Future<U>&)` (the rvalue overload branches
identically):

```
if (future.promise_->executor_ == executor_) {
  return AwaitWrapper<Future<U>>::create(future);
}
return AwaitWrapper<Future<U>>::create(future, executor_);
```
-/
def await_transform_Future {α : Type} (p : Promise α) (fut : FutureHandle) :
    AwaitWrapper :=
  if fut.promiseExecutor = p.executor_ then AwaitWrapper.create1 fut
  else AwaitWrapper.create2 fut p.executor_

/-- Modelled from the spec: `AwaitWrapper.h` is not part of the analysed
module. Per spec §4.2 dispatch rule 3, a wrapper created with an executor
performs exactly one deliberate executor hop after the value is ready, and
one created without an executor attaches directly with zero extra hops. -/
def AwaitWrapper.executorHops : AwaitWrapper → Nat
  | ⟨none⟩ => 0
  | ⟨some _⟩ => 1

/-- `AwaitableReady<T>` from Utils.h: an awaitable holding an immediate
value. Only its construction site is in the analysed module. -/
structure AwaitableReady (α : Type) where
  value : α
deriving DecidableEq, Repr

/-- Modelled from the spec: `Utils.h` (`AwaitableReady`) is not part of the
analysed module. Per spec §4.2 dispatch rule 4, the ready awaitable is
"resolved immediately as a ready value, never suspends": its
`await_ready` is always `true`. -/
def AwaitableReady.ready {α : Type} (_a : AwaitableReady α) : Bool :=
  true

/-- `Promise<T>::await_transform(getCurrentExecutor)`:
`return AwaitableReady<Executor*>(executor_);` -/
def await_transform_getCurrentExecutor {α : Type} (p : Promise α) :
    AwaitableReady Nat :=
  ⟨p.executor_⟩

/-! ### Helper lemmas about the interference model -/

theorem applyEdge_none (s : PromiseState) : applyEdge none s = s := by
  cases s <;> rfl

theorem applyEdge_cases (e : Option EnvEdge) (s : PromiseState) :
    applyEdge e s = s ∨
      (s = PromiseState.EMPTY ∧
        (applyEdge e s = PromiseState.DETACHED ∨
         applyEdge e s = PromiseState.HAS_AWAITER)) := by
  cases e with
  | none => cases s <;> decide
  | some ed => cases ed <;> cases s <;> decide

theorem applyEdge_ne_HAS_RESULT (e : Option EnvEdge) (s : PromiseState)
    (h : s ≠ PromiseState.HAS_RESULT) :
    applyEdge e s ≠ PromiseState.HAS_RESULT := by
  cases e with
  | none => cases s <;> simp_all [applyEdge]
  | some ed => cases ed <;> cases s <;> simp_all [applyEdge]

theorem applyEdge_not_EMPTY (e : Option EnvEdge) (s : PromiseState)
    (h : s ≠ PromiseState.EMPTY) : applyEdge e s = s := by
  cases e with
  | none => cases s <;> simp_all [applyEdge]
  | some ed => cases ed <;> cases s <;> simp_all [applyEdge]

theorem applyEdge_no_detach (e : Option EnvEdge) (s : PromiseState)
    (he : e ≠ some EnvEdge.detach) (h : s ≠ PromiseState.DETACHED) :
    applyEdge e s ≠ PromiseState.DETACHED := by
  cases e with
  | none => cases s <;> simp_all [applyEdge]
  | some ed => cases ed with
    | detach => exact absurd rfl he
    | register => cases s <;> simp_all [applyEdge]

theorem headD_spurious_false (l : List Iter)
    (h : ∀ it ∈ l, it.spurious = false) :
    (l.headD ⟨none, false⟩).spurious = false := by
  cases l with
  | nil => rfl
  | cons a t => exact h a (List.mem_cons_self a t)

theorem headD_edge_no_detach (l : List Iter)
    (h : ∀ it ∈ l, it.edge ≠ some EnvEdge.detach) :
    (l.headD ⟨none, false⟩).edge ≠ some EnvEdge.detach := by
  cases l with
  | nil => nofun
  | cons a t => exact h a (List.mem_cons_self a t)

theorem tail_spurious_false (l : List Iter)
    (h : ∀ it ∈ l, it.spurious = false) :
    ∀ it ∈ l.tail, it.spurious = false := by
  intro it hit
  exact h it (List.mem_of_mem_tail hit)

theorem tail_edge_no_detach (l : List Iter)
    (h : ∀ it ∈ l, it.edge ≠ some EnvEdge.detach) :
    ∀ it ∈ l.tail, it.edge ≠ some EnvEdge.detach := by
  intro it hit
  exact h it (List.mem_of_mem_tail hit)

/-! ### Structural lemmas about the compare-exchange loop -/

/-- Unconditionally, the loop either exits via the `DETACHED` early return
having written nothing, or exits via a successful compare-exchange whose
observed prior state was not `DETACHED`, having performed exactly the one
write `prior → HAS_RESULT` and left the shared state at `HAS_RESULT`. -/
theorem casLoop_exit_writes :
    ∀ (fuel : Nat) (sched : List Iter) (obs sh : PromiseState)
      (r : LoopResult), casLoop fuel sched obs sh = some r →
      (r.exit = LoopExit.detached ∧ r.writes = []) ∨
      (∃ p, r.exit = LoopExit.completed p ∧ p ≠ PromiseState.DETACHED ∧
        r.writes = [(p, PromiseState.HAS_RESULT)] ∧
        r.shared = PromiseState.HAS_RESULT) := by
  intro fuel
  induction fuel with
  | zero => intro sched obs sh r h; simp [casLoop] at h
  | succ fuel ih =>
    intro sched obs sh r h
    rw [casLoop] at h
    by_cases hd : obs = PromiseState.DETACHED
    · rw [if_pos hd] at h
      injection h with h2
      subst h2
      exact Or.inl ⟨rfl, rfl⟩
    · rw [if_neg hd] at h
      by_cases hc : obs = applyEdge (sched.headD ⟨none, false⟩).edge sh
          ∧ (sched.headD ⟨none, false⟩).spurious = false
      · rw [if_pos hc] at h
        injection h with h2
        subst h2
        exact Or.inr ⟨obs, rfl, hd, rfl, rfl⟩
      · rw [if_neg hc] at h
        rcases Option.map_eq_some'.mp h with ⟨r0, hrec, hfr⟩
        subst hfr
        rcases ih _ _ _ r0 hrec with ⟨he, hw⟩ | ⟨p, he, hp, hw, hshd⟩
        · exact Or.inl ⟨he, hw⟩
        · exact Or.inr ⟨p, he, hp, hw, hshd⟩

/-- Under the protocol precondition that the shared state is not already
`HAS_RESULT` when finalization starts (finalization runs exactly once),
and with interference restricted to the legal external edges, the loop
never observes `HAS_RESULT` at the `DCHECK`, and a successful
compare-exchange departs only from `EMPTY` or `HAS_AWAITER`. -/
theorem casLoop_sound :
    ∀ (fuel : Nat) (sched : List Iter) (obs sh : PromiseState),
      obs ≠ PromiseState.HAS_RESULT → sh ≠ PromiseState.HAS_RESULT →
      ∀ r, casLoop fuel sched obs sh = some r →
        r.sawHasResult = false ∧
        ((r.exit = LoopExit.detached ∧ r.writes = []) ∨
          (∃ p, r.exit = LoopExit.completed p ∧
            (p = PromiseState.EMPTY ∨ p = PromiseState.HAS_AWAITER) ∧
            r.writes = [(p, PromiseState.HAS_RESULT)] ∧
            r.shared = PromiseState.HAS_RESULT)) := by
  intro fuel
  induction fuel with
  | zero => intro sched obs sh _ _ r h; simp [casLoop] at h
  | succ fuel ih =>
    intro sched obs sh hobs hsh r h
    rw [casLoop] at h
    by_cases hd : obs = PromiseState.DETACHED
    · rw [if_pos hd] at h
      injection h with h2
      subst h2
      exact ⟨rfl, Or.inl ⟨rfl, rfl⟩⟩
    · rw [if_neg hd] at h
      by_cases hc : obs = applyEdge (sched.headD ⟨none, false⟩).edge sh
          ∧ (sched.headD ⟨none, false⟩).spurious = false
      · rw [if_pos hc] at h
        injection h with h2
        subst h2
        refine ⟨by simp [hobs], Or.inr ⟨obs, rfl, ?_, rfl, rfl⟩⟩
        cases obs with
        | EMPTY => exact Or.inl rfl
        | HAS_AWAITER => exact Or.inr rfl
        | DETACHED => exact absurd rfl hd
        | HAS_RESULT => exact absurd rfl hobs
      · rw [if_neg hc] at h
        rcases Option.map_eq_some'.mp h with ⟨r0, hrec, hfr⟩
        subst hfr
        have hsh2 := applyEdge_ne_HAS_RESULT (sched.headD ⟨none, false⟩).edge sh hsh
        obtain ⟨s1, s2⟩ := ih sched.tail _ _ hsh2 hsh2 r0 hrec
        refine ⟨by simp [s1, hobs], ?_⟩
        rcases s2 with ⟨he, hw⟩ | ⟨p, he, hp, hw, hshd⟩
        · exact Or.inl ⟨he, hw⟩
        · exact Or.inr ⟨p, he, hp, hw, hshd⟩

/-- The loop terminates for every finite adversarial schedule: with fuel
exceeding the schedule length it returns a result within
`sched.length + 1` iterations (once interference and spurious failures
cease, the next compare-exchange either succeeds or the `DETACHED` early
exit fires). -/
theorem casLoop_total :
    ∀ (sched : List Iter) (fuel : Nat) (s : PromiseState),
      sched.length < fuel →
      ∃ r, casLoop fuel sched s s = some r ∧ r.iters ≤ sched.length + 1 := by
  intro sched
  induction sched with
  | nil =>
    intro fuel s hf
    obtain ⟨m, rfl⟩ : ∃ m, fuel = m + 1 := ⟨fuel - 1, by omega⟩
    by_cases hd : s = PromiseState.DETACHED
    · exact ⟨⟨LoopExit.detached, s, 1, false, []⟩,
        by rw [casLoop, if_pos hd], by simp⟩
    · have hcond : s = applyEdge (([] : List Iter).headD ⟨none, false⟩).edge s
          ∧ ((([] : List Iter)).headD ⟨none, false⟩).spurious = false :=
        ⟨(applyEdge_none s).symm, rfl⟩
      exact ⟨⟨LoopExit.completed s, PromiseState.HAS_RESULT, 1,
          decide (s = PromiseState.HAS_RESULT), [(s, PromiseState.HAS_RESULT)]⟩,
        by rw [casLoop, if_neg hd, if_pos hcond], by simp⟩
  | cons it rest ih =>
    intro fuel s hf
    obtain ⟨m, rfl⟩ : ∃ m, fuel = m + 1 := ⟨fuel - 1, by omega⟩
    by_cases hd : s = PromiseState.DETACHED
    · exact ⟨⟨LoopExit.detached, s, 1, false, []⟩,
        by rw [casLoop, if_pos hd], by simp⟩
    · by_cases hc : s = applyEdge ((it :: rest).headD ⟨none, false⟩).edge s
          ∧ ((it :: rest).headD ⟨none, false⟩).spurious = false
      · exact ⟨⟨LoopExit.completed s, PromiseState.HAS_RESULT, 1,
            decide (s = PromiseState.HAS_RESULT), [(s, PromiseState.HAS_RESULT)]⟩,
          by rw [casLoop, if_neg hd, if_pos hc], by simp⟩
      · have hrest : rest.length < m := by
          simp only [List.length_cons] at hf
          omega
        obtain ⟨r0, hr0, hi⟩ := ih m (applyEdge it.edge s) hrest
        refine ⟨⟨r0.exit, r0.shared, r0.iters + 1,
            decide (s = PromiseState.HAS_RESULT) || r0.sawHasResult, r0.writes⟩,
          ?_, ?_⟩
        · rw [casLoop, if_neg hd, if_neg hc]
          simp only [List.headD_cons, List.tail_cons]
          rw [hr0]
          rfl
        · simp only [List.length_cons]
          omega

/-- Under strong-CAS semantics (no spurious `compare_exchange_weak`
failures scheduled), the loop exits within two iterations for every
interference schedule: only the first effective external edge can defeat
one compare-exchange, since every legal edge departs from `EMPTY` and no
edge re-enters `EMPTY`. -/
theorem casLoop_strong (sched : List Iter) (s : PromiseState)
    (hspur : ∀ it ∈ sched, it.spurious = false) :
    ∃ r, casLoop 2 sched s s = some r ∧ r.iters ≤ 2 := by
  have hsp1 : (sched.headD ⟨none, false⟩).spurious = false :=
    headD_spurious_false sched hspur
  by_cases hd : s = PromiseState.DETACHED
  · exact ⟨⟨LoopExit.detached, s, 1, false, []⟩,
      by rw [casLoop, if_pos hd], by simp⟩
  · by_cases hcas : s = applyEdge (sched.headD ⟨none, false⟩).edge s
    · exact ⟨⟨LoopExit.completed s, PromiseState.HAS_RESULT, 1,
          decide (s = PromiseState.HAS_RESULT), [(s, PromiseState.HAS_RESULT)]⟩,
        by rw [casLoop, if_neg hd, if_pos ⟨hcas, hsp1⟩], by simp⟩
    · rcases applyEdge_cases (sched.headD ⟨none, false⟩).edge s with heq | ⟨_, hDH⟩
      · exact absurd heq.symm hcas
      · have hnc : ¬(s = applyEdge (sched.headD ⟨none, false⟩).edge s
            ∧ (sched.headD ⟨none, false⟩).spurious = false) :=
          fun hcc => hcas hcc.1
        rcases hDH with h2 | h2
        · refine ⟨⟨LoopExit.detached, PromiseState.DETACHED, 2,
              decide (s = PromiseState.HAS_RESULT) || false, []⟩, ?_, by simp⟩
          rw [casLoop, if_neg hd, if_neg hnc, h2, casLoop, if_pos rfl]
          rfl
        · have hsp2 : (sched.tail.headD ⟨none, false⟩).spurious = false :=
            headD_spurious_false sched.tail (tail_spurious_false sched hspur)
          have hid : applyEdge (sched.tail.headD ⟨none, false⟩).edge
              PromiseState.HAS_AWAITER = PromiseState.HAS_AWAITER :=
            applyEdge_not_EMPTY _ _ (by nofun)
          refine ⟨⟨LoopExit.completed PromiseState.HAS_AWAITER,
              PromiseState.HAS_RESULT, 2,
              decide (s = PromiseState.HAS_RESULT) || false,
              [(PromiseState.HAS_AWAITER, PromiseState.HAS_RESULT)]⟩, ?_, by simp⟩
          rw [casLoop, if_neg hd, if_neg hnc, h2, casLoop,
            if_neg (by nofun), if_pos ⟨hid.symm, hsp2⟩]
          rfl

/-- If no detach is scheduled and the state is not `DETACHED`, the loop
never takes the `DETACHED` early exit: `await_suspend` returns `false`
only when a detach actually happened. -/
theorem casLoop_no_detach :
    ∀ (fuel : Nat) (sched : List Iter) (obs sh : PromiseState),
      (∀ it ∈ sched, it.edge ≠ some EnvEdge.detach) →
      obs ≠ PromiseState.DETACHED → sh ≠ PromiseState.DETACHED →
      ∀ r, casLoop fuel sched obs sh = some r →
        r.exit ≠ LoopExit.detached := by
  intro fuel
  induction fuel with
  | zero => intro sched obs sh _ _ _ r h; simp [casLoop] at h
  | succ fuel ih =>
    intro sched obs sh hnd hobs hsh r h
    rw [casLoop, if_neg hobs] at h
    by_cases hc : obs = applyEdge (sched.headD ⟨none, false⟩).edge sh
        ∧ (sched.headD ⟨none, false⟩).spurious = false
    · rw [if_pos hc] at h
      injection h with h2
      subst h2
      nofun
    · rw [if_neg hc] at h
      rcases Option.map_eq_some'.mp h with ⟨r0, hrec, hfr⟩
      subst hfr
      have hsh2 : applyEdge (sched.headD ⟨none, false⟩).edge sh
          ≠ PromiseState.DETACHED :=
        applyEdge_no_detach _ _ (headD_edge_no_detach sched hnd) hsh
      exact ih sched.tail _ _ (tail_edge_no_detach sched hnd) hsh2 hsh2 r0 hrec

theorem suspendOfLoop_exit (r : LoopResult) :
    (suspendOfLoop r).exit = r.exit := by
  cases hex : r.exit <;> simp [suspendOfLoop, hex]

theorem suspendOfLoop_iters (r : LoopResult) :
    (suspendOfLoop r).iters = r.iters := by
  cases hex : r.exit <;> simp [suspendOfLoop, hex]

theorem suspendOfLoop_sawHasResult (r : LoopResult) :
    (suspendOfLoop r).sawHasResult = r.sawHasResult := by
  cases hex : r.exit <;> simp [suspendOfLoop, hex]

theorem suspendOfLoop_writes (r : LoopResult) :
    (suspendOfLoop r).writes = r.writes := by
  cases hex : r.exit <;> simp [suspendOfLoop, hex]

/-! ### Claim theorems -/

/-- Claim C1: for every execution of `FinalSuspender::await_suspend`, the
stored continuation is resumed exactly once when the state observed by the
successful compare-exchange was `HAS_AWAITER`, never when that prior state
was `EMPTY` or when the loop exited on `DETACHED`, and no execution
resumes the continuation more than once. -/
theorem await_suspend_single_resumption (fuel : Nat) (sched : List Iter)
    (s : PromiseState) (r : SuspendResult)
    (h : await_suspend fuel sched s = some r) :
    r.resumes ≤ 1 ∧
    (r.resumes = 1 ↔ r.exit = LoopExit.completed PromiseState.HAS_AWAITER) ∧
    (r.exit = LoopExit.completed PromiseState.EMPTY → r.resumes = 0) ∧
    (r.exit = LoopExit.detached → r.resumes = 0) := by
  rcases Option.map_eq_some'.mp h with ⟨r0, hrec, hfr⟩
  subst hfr
  cases hex : r0.exit with
  | detached => simp [suspendOfLoop, hex]
  | completed p =>
    by_cases hp : p = PromiseState.HAS_AWAITER
    · subst hp
      simp [suspendOfLoop, hex]
    · simp [suspendOfLoop, hex, hp]

def wres1 : SuspendResult :=
  ⟨LoopExit.completed PromiseState.HAS_AWAITER, true, 1, PromiseState.HAS_RESULT,
   1, false, [(PromiseState.HAS_AWAITER, PromiseState.HAS_RESULT)]⟩

/-- Witness for C1 at the concrete run: uncontended finalization from
`HAS_AWAITER` resumes exactly once. -/
theorem await_suspend_single_resumption_witness :
    wres1.resumes ≤ 1 ∧
    (wres1.resumes = 1 ↔ wres1.exit = LoopExit.completed PromiseState.HAS_AWAITER) ∧
    (wres1.exit = LoopExit.completed PromiseState.EMPTY → wres1.resumes = 0) ∧
    (wres1.exit = LoopExit.detached → wres1.resumes = 0) :=
  await_suspend_single_resumption 2 [] PromiseState.HAS_AWAITER wres1 (by decide)

/-- Claim C2: every transition performed by the finalization step is a
legal edge of the lifecycle state machine — the loop writes the shared
state at most once, only as `EMPTY → HAS_RESULT` or
`HAS_AWAITER → HAS_RESULT`, and on `DETACHED` it exits returning `false`
with no write at all. -/
theorem await_suspend_legal_transitions (fuel : Nat) (sched : List Iter)
    (s : PromiseState) (r : SuspendResult)
    (hs : s ≠ PromiseState.HAS_RESULT)
    (h : await_suspend fuel sched s = some r) :
    (∀ w ∈ r.writes,
        w = (PromiseState.EMPTY, PromiseState.HAS_RESULT) ∨
        w = (PromiseState.HAS_AWAITER, PromiseState.HAS_RESULT)) ∧
    r.writes.length ≤ 1 ∧
    (r.exit = LoopExit.detached → r.suspended = false ∧ r.writes = []) := by
  rcases Option.map_eq_some'.mp h with ⟨r0, hrec, hfr⟩
  subst hfr
  obtain ⟨_, hsound⟩ := casLoop_sound fuel sched s s hs hs r0 hrec
  rcases hsound with ⟨he, hw⟩ | ⟨p, he, hp, hw, _⟩
  · simp [suspendOfLoop, he, hw]
  · rcases hp with hp | hp <;> subst hp <;> simp [suspendOfLoop, he, hw]

def wres2 : SuspendResult :=
  ⟨LoopExit.completed PromiseState.HAS_AWAITER, true, 1, PromiseState.HAS_RESULT,
   2, false, [(PromiseState.HAS_AWAITER, PromiseState.HAS_RESULT)]⟩

/-- Witness for C2: finalization racing a concurrent awaiter registration
performs only the legal edge `HAS_AWAITER → HAS_RESULT`. -/
theorem await_suspend_legal_transitions_witness :
    (∀ w ∈ wres2.writes,
        w = (PromiseState.EMPTY, PromiseState.HAS_RESULT) ∨
        w = (PromiseState.HAS_AWAITER, PromiseState.HAS_RESULT)) ∧
    wres2.writes.length ≤ 1 ∧
    (wres2.exit = LoopExit.detached → wres2.suspended = false ∧ wres2.writes = []) :=
  await_suspend_legal_transitions 3 [⟨some EnvEdge.register, false⟩]
    PromiseState.EMPTY wres2 (by decide) (by decide)

/-- Claim C10: the assertion `DCHECK(state != State::HAS_RESULT)` inside
`await_suspend` never fires: if finalization starts from a state other
than `HAS_RESULT` and all interference takes only the legal external
edges, no loop iteration observes `HAS_RESULT`. -/
theorem await_suspend_dcheck_never_fires (fuel : Nat) (sched : List Iter)
    (s : PromiseState) (r : SuspendResult)
    (hs : s ≠ PromiseState.HAS_RESULT)
    (h : await_suspend fuel sched s = some r) :
    r.sawHasResult = false := by
  rcases Option.map_eq_some'.mp h with ⟨r0, hrec, hfr⟩
  subst hfr
  obtain ⟨hsaw, _⟩ := casLoop_sound fuel sched s s hs hs r0 hrec
  rw [suspendOfLoop_sawHasResult]
  exact hsaw

def wres10 : SuspendResult :=
  ⟨LoopExit.completed PromiseState.EMPTY, true, 0, PromiseState.HAS_RESULT,
   1, false, [(PromiseState.EMPTY, PromiseState.HAS_RESULT)]⟩

/-- Witness for C10: the uncontended run from `EMPTY` never observes
`HAS_RESULT` at the assertion. -/
theorem await_suspend_dcheck_never_fires_witness :
    wres10.sawHasResult = false :=
  await_suspend_dcheck_never_fires 1 [] PromiseState.EMPTY wres10
    (by decide) (by decide)

/-- Claim C3: `await_ready` returns `true` exactly when the state is
`DETACHED`; on a `DETACHED` state `await_suspend` immediately returns
`false` having resumed nothing and written nothing, letting the frame run
to its end and self-destroy; whenever `await_suspend` returns `false` it
has resumed nothing, and it returns `false` only when a detach actually
occurred. -/
theorem finalSuspender_detached_silence :
    (∀ s : PromiseState, await_ready s = true ↔ s = PromiseState.DETACHED) ∧
    (∀ (fuel : Nat) (sched : List Iter),
      await_suspend (fuel + 1) sched PromiseState.DETACHED =
        some ⟨LoopExit.detached, false, 0, PromiseState.DETACHED, 1, false, []⟩) ∧
    (∀ (fuel : Nat) (sched : List Iter) (s : PromiseState) (r : SuspendResult),
      await_suspend fuel sched s = some r → r.suspended = false →
        r.resumes = 0 ∧ r.writes = [] ∧ r.exit = LoopExit.detached) ∧
    (∀ (fuel : Nat) (sched : List Iter) (s : PromiseState) (r : SuspendResult),
      await_suspend fuel sched s = some r → s ≠ PromiseState.DETACHED →
      (∀ it ∈ sched, it.edge ≠ some EnvEdge.detach) → r.suspended = true) := by
  refine ⟨?_, ?_, ?_, ?_⟩
  · intro s
    simp [await_ready]
  · intro fuel sched
    unfold await_suspend
    rw [casLoop, if_pos rfl]
    rfl
  · intro fuel sched s r h hsusp
    rcases Option.map_eq_some'.mp h with ⟨r0, hrec, hfr⟩
    subst hfr
    rcases casLoop_exit_writes fuel sched s s r0 hrec with ⟨he, hw⟩ | ⟨p, he, _, _, _⟩
    · simp [suspendOfLoop, he, hw]
    · exfalso
      revert hsusp
      simp [suspendOfLoop, he]
  · intro fuel sched s r h hs hnd
    rcases Option.map_eq_some'.mp h with ⟨r0, hrec, hfr⟩
    subst hfr
    have hne := casLoop_no_detach fuel sched s s hnd hs hs r0 hrec
    cases hex : r0.exit with
    | detached => exact absurd hex hne
    | completed p => simp [suspendOfLoop, hex]

def wres3 : SuspendResult :=
  ⟨LoopExit.detached, false, 0, PromiseState.DETACHED, 1, false, []⟩

/-- Witness for C3: finalizing a detached frame resumes nothing and writes
nothing. -/
theorem finalSuspender_detached_silence_witness :
    wres3.resumes = 0 ∧ wres3.writes = [] ∧ wres3.exit = LoopExit.detached :=
  finalSuspender_detached_silence.2.2.1 2 [] PromiseState.DETACHED wres3
    (by decide) (by decide)

/-- Claim C9: the compare-exchange loop terminates for every finite
adversarial schedule — within `sched.length + 1` iterations in general,
and within two iterations under strong-CAS semantics, since the single
external actor can defeat at most one compare-exchange. -/
theorem cas_loop_bounded_termination (sched : List Iter) (s : PromiseState) :
    (∀ fuel : Nat, sched.length < fuel →
      ∃ r, await_suspend fuel sched s = some r ∧ r.iters ≤ sched.length + 1) ∧
    ((∀ it ∈ sched, it.spurious = false) →
      ∃ r, await_suspend 2 sched s = some r ∧ r.iters ≤ 2) := by
  constructor
  · intro fuel hf
    obtain ⟨r0, hr0, hi⟩ := casLoop_total sched fuel s hf
    refine ⟨suspendOfLoop r0, ?_, ?_⟩
    · unfold await_suspend
      rw [hr0]
      rfl
    · rw [suspendOfLoop_iters]
      exact hi
  · intro hspur
    obtain ⟨r0, hr0, hi⟩ := casLoop_strong sched s hspur
    refine ⟨suspendOfLoop r0, ?_, ?_⟩
    · unfold await_suspend
      rw [hr0]
      rfl
    · rw [suspendOfLoop_iters]
      exact hi

/-- Witness for C9: a run with one concurrent awaiter registration still
terminates. -/
theorem cas_loop_bounded_termination_witness :
    (await_suspend 2 [⟨some EnvEdge.register, false⟩] PromiseState.EMPTY).isSome
      = true := by
  obtain ⟨r, hr, _⟩ :=
    (cas_loop_bounded_termination [⟨some EnvEdge.register, false⟩]
      PromiseState.EMPTY).2 (by decide)
  rw [hr]
  rfl

/-- Claim C4: `return_value` and `unhandled_exception` write only the
result cell: the lifecycle state, the stored continuation handle and the
bound executor are left unchanged, and neither function's store list
touches any field but `result_`. -/
theorem record_ops_touch_only_result (α : Type) (p : Promise α) (v : α)
    (e : Nat) :
    ((return_value p v).state_ = p.state_ ∧
     (return_value p v).awaiter_ = p.awaiter_ ∧
     (return_value p v).executor_ = p.executor_) ∧
    ((unhandled_exception p e).state_ = p.state_ ∧
     (unhandled_exception p e).awaiter_ = p.awaiter_ ∧
     (unhandled_exception p e).executor_ = p.executor_) ∧
    (∀ w ∈ return_value_stores, w = FieldW.wresult) ∧
    (∀ w ∈ unhandled_exception_stores, w = FieldW.wresult) :=
  ⟨⟨rfl, rfl, rfl⟩, ⟨rfl, rfl, rfl⟩, by decide, by decide⟩

/-- Claim C5: error- and value-producing completions follow one
finalization path — `unhandled_exception` stores into the same `result_`
slot that `return_value` uses (the whole frame update differs only in that
slot's content), both perform the same single store, and the final
suspender's behaviour depends only on the lifecycle state, never on
`result_`. -/
theorem error_value_identical_finalize (α : Type) (p q : Promise α) (v : α)
    (e fuel : Nat) (sched : List Iter) :
    unhandled_exception p e = { p with result_ := Try.error e } ∧
    return_value p v = { p with result_ := Try.value v } ∧
    unhandled_exception_stores = return_value_stores ∧
    (p.state_ = q.state_ →
      finalAwaitReady p = finalAwaitReady q ∧
      finalAwaitSuspend fuel sched p = finalAwaitSuspend fuel sched q) := by
  refine ⟨rfl, rfl, rfl, fun h => ⟨?_, ?_⟩⟩
  · simp [finalAwaitReady, await_ready, h]
  · simp [finalAwaitSuspend, await_suspend, h]

def wpv : Promise Nat :=
  ⟨Try.value 7, PromiseState.HAS_AWAITER, some 1, 5⟩

def wqe : Promise Nat :=
  ⟨Try.error 3, PromiseState.HAS_AWAITER, some 1, 5⟩

/-- Witness for C5: two frames in state `HAS_AWAITER`, one holding a value
and one holding a captured error, take identical finalization steps. -/
theorem error_value_identical_finalize_witness :
    finalAwaitReady wpv = finalAwaitReady wqe ∧
    finalAwaitSuspend 2 [] wpv = finalAwaitSuspend 2 [] wqe :=
  (error_value_identical_finalize Nat wpv wqe 0 0 2 []).2.2.2 rfl

/-- Claim C6: `await_transform(Future<U>)` compares the future's bound
executor with the awaiting frame's executor: when identical it uses the
`create` overload without an executor (zero extra hops), and when they
differ it passes the current executor so exactly one hop is performed
after the value is ready. -/
theorem await_transform_future_executor_hop (α : Type) (p : Promise α)
    (fut : FutureHandle) :
    (fut.promiseExecutor = p.executor_ →
      await_transform_Future p fut = AwaitWrapper.create1 fut ∧
      (await_transform_Future p fut).passedExecutor = none ∧
      (await_transform_Future p fut).executorHops = 0) ∧
    (fut.promiseExecutor ≠ p.executor_ →
      await_transform_Future p fut = AwaitWrapper.create2 fut p.executor_ ∧
      (await_transform_Future p fut).passedExecutor = some p.executor_ ∧
      (await_transform_Future p fut).executorHops = 1) := by
  constructor
  · intro he
    simp [await_transform_Future, he, AwaitWrapper.create1, AwaitWrapper.executorHops]
  · intro he
    simp [await_transform_Future, he, AwaitWrapper.create2, AwaitWrapper.executorHops]

def wpexec : Promise Nat :=
  ⟨Try.nothing, PromiseState.EMPTY, none, 5⟩

/-- Witness for C6 at concrete executors: same executor attaches directly,
a different executor is wrapped for exactly one hop. -/
theorem await_transform_future_executor_hop_witness :
    (await_transform_Future wpexec ⟨5⟩ = AwaitWrapper.create1 ⟨5⟩ ∧
      (await_transform_Future wpexec ⟨5⟩).passedExecutor = none ∧
      (await_transform_Future wpexec ⟨5⟩).executorHops = 0) ∧
    (await_transform_Future wpexec ⟨9⟩ = AwaitWrapper.create2 ⟨9⟩ 5 ∧
      (await_transform_Future wpexec ⟨9⟩).passedExecutor = some 5 ∧
      (await_transform_Future wpexec ⟨9⟩).executorHops = 1) :=
  ⟨(await_transform_future_executor_hop Nat wpexec ⟨5⟩).1 (by decide),
   (await_transform_future_executor_hop Nat wpexec ⟨9⟩).2 (by decide)⟩

/-- Claim C7: awaiting the current-executor query never suspends:
`await_transform(getCurrentExecutor)` yields an immediately-ready
awaitable whose value is exactly the frame's bound executor. -/
theorem await_transform_current_executor_ready (α : Type) (p : Promise α) :
    (await_transform_getCurrentExecutor p).value = p.executor_ ∧
    (await_transform_getCurrentExecutor p).ready = true :=
  ⟨rfl, rfl⟩

/-- Counterexample for C8 as stated: a `void` coroutine completing with a
value goes through `PromiseBase<void>::return_void`, whose body is empty —
the result cell receives no write at all on that path, so it is not true
that exactly one of `return_value`/`unhandled_exception` wrote `result_`. -/
theorem return_void_writes_no_result :
    ¬ resultWrites (completionStoresVoid (Outcome.value Unit.unit)) = 1 := by
  decide

/-- Claim C8 (amended): for non-void `T` exactly one of `return_value` or
`unhandled_exception` writes `result_`, exactly once, per completed
coroutine; for `T = void` the error path writes it once while the value
path (`return_void`) performs no write; in every case `result_` is written
at most once, and only by the body-completion path. -/
theorem result_cell_written_at_most_once (α : Type) :
    (∀ o : Outcome α, resultWrites (completionStoresNonVoid o) = 1) ∧
    (∀ e : Nat, resultWrites (completionStoresVoid (Outcome.error e)) = 1) ∧
    (∀ u : Unit, resultWrites (completionStoresVoid (Outcome.value u)) = 0) ∧
    (∀ o : Outcome Unit, resultWrites (completionStoresVoid o) ≤ 1) := by
  refine ⟨fun o => ?_, fun e => rfl, fun u => rfl, fun o => ?_⟩
  · cases o <;> rfl
  · cases o with
    | value u => exact Nat.zero_le 1
    | error e => exact Nat.le_refl 1

end Coro
end Folly
